import Mathlib

/-!
Verification of the e2ebench visualization CLI (`visualization_cli.py`).

The file embeds the filtering / interactive-selection / join / render-dispatch
pipeline of the CLI as executable Lean definitions and proves (or refutes)
the specification's claims about it.

Conventions of the embedding:
* a pandas DataFrame is a `List` of row structures, in row order;
* `Series.isin(values)` is modelled by its documented semantics: element-wise
  membership of the cell value in `values`, compared by value equality.  Cell
  values and membership-set elements live in the sum type `PdVal` so that the
  source's wrapping of the argument list (`isin([args.uuids])`) is represented
  faithfully: the single element of the membership set is then a list value,
  which no string cell ever equals;
* `groupby` over a column is modelled by the list of groups indexed by the
  sorted distinct keys, dropping rows whose key is null (pandas `dropna=True`);
* Python exceptions are modelled by `Except String`;
* the interactive prompt is modelled by passing the user's selection (the list
  of values of the checkbox entries the user ticked) as an explicit argument;
* parts of the repository that are not in `visualization_cli.py`
  (`datamodel.py`, the visualizer classes, `pickle`) are modelled from the
  spec, as marked on their doc comments.
-/

/-- Measurement-index row, as materialized by `create_dfs`
(columns `id`, `uuid`, `measurement_type`, `measurement_desc`).
A null description is `Option.none`. -/
structure MeasRow where
  id : Nat
  uuid : String
  measurement_type : String
  measurement_desc : Option String
deriving DecidableEq

/-- Run-metadata row, as materialized by `create_dfs`
(columns `uuid`, `meta_desc`, `meta_start_time`). -/
structure MetaRow where
  uuid : String
  meta_desc : Option String
  meta_start_time : Nat
deriving DecidableEq

/-- Modelled from the spec: the persisted `Measurement` record of
`e2ebench.datamodel` (not under `src/`): id, run uuid, type tag, optional
description, timestamp, serialized value payload, unit. -/
structure Measurement where
  id : Nat
  benchmark_uuid : String
  measurement_type : String
  description : Option String
  datetime : Nat
  value : List Nat
  unit : String
deriving DecidableEq

/-- Modelled from the spec: the persisted `BenchmarkMetadata` record of
`e2ebench.datamodel` (not under `src/`): run uuid, optional description,
start time. -/
structure BenchmarkMetadata where
  uuid : String
  description : Option String
  start_time : Nat
deriving DecidableEq

/-- The store: the two persisted tables. -/
structure Db where
  measurements : List Measurement
  metadata : List BenchmarkMetadata
deriving DecidableEq

/-- Parsed command-line arguments (`get_args`): the three optional criterion
lists and the plotting backend. -/
structure Args where
  uuids : Option (List String)
  types : Option (List String)
  descriptions : Option (List String)
  plotting_backend : String
deriving DecidableEq

/-- A pandas cell or membership-set element: a string, a null, or — through
the source's extra list wrapping — a whole list of strings as one value. -/
inductive PdVal where
  | str (v : String)
  | strList (v : List String)
  | null
deriving DecidableEq

/-- Cell value of an optional-string column (`None` becomes a null cell). -/
def descVal : Option String → PdVal
  | some s => PdVal.str s
  | none => PdVal.null

/-- Documented semantics of `Series.isin`: the cell value is a member of the
supplied values, by value equality. -/
def pdIsin (cell : PdVal) (values : List PdVal) : Bool :=
  values.contains cell

/-- Python truthiness of an optional list (`if args.uuids:`):
`None` and `[]` are falsy. -/
def truthy : Option (List String) → Bool
  | some (_ :: _) => true
  | _ => false

/-- `create_dfs`: project the two store tables to the summary columns. -/
def create_dfs (db : Db) : List MeasRow × List MetaRow :=
  (db.measurements.map (fun m =>
      { id := m.id, uuid := m.benchmark_uuid,
        measurement_type := m.measurement_type,
        measurement_desc := m.description }),
   db.metadata.map (fun b =>
      { uuid := b.uuid, meta_desc := b.description,
        meta_start_time := b.start_time }))

/-- `filter_by_args`: narrow the two tables by the supplied criteria.  The
source wraps each criterion list in another list (`isin([args.uuids])`), so
the membership set is the single list value `PdVal.strList vs`.  Raises when
the narrowed measurement table is empty. -/
def filter_by_args (meas : List MeasRow) (meta : List MetaRow) (args : Args) :
    Except String (List MeasRow × List MetaRow) :=
  let pair :=
    match args.uuids with
    | some us =>
        if us.isEmpty then (meas, meta)
        else (meas.filter (fun r => pdIsin (PdVal.str r.uuid) [PdVal.strList us]),
              meta.filter (fun r => pdIsin (PdVal.str r.uuid) [PdVal.strList us]))
    | none => (meas, meta)
  let meas2 :=
    match args.types with
    | some ts =>
        if ts.isEmpty then pair.1
        else pair.1.filter (fun r => pdIsin (PdVal.str r.measurement_type) [PdVal.strList ts])
    | none => pair.1
  let meas3 :=
    match args.descriptions with
    | some ds =>
        if ds.isEmpty then meas2
        else meas2.filter (fun r => pdIsin (descVal r.measurement_desc) [PdVal.strList ds])
    | none => meas2
  if meas3.isEmpty then
    Except.error "There are no database entries with the given uuids, types and descriptions."
  else
    Except.ok (meas3, pair.2)

/-- Lexicographic code-point comparison of character lists — the order pandas
uses when sorting string group keys. -/
def charsLe : List Char → List Char → Bool
  | [], _ => true
  | _ :: _, [] => false
  | a :: as, b :: bs =>
    if a.toNat < b.toNat then true
    else if b.toNat < a.toNat then false
    else charsLe as bs

/-- String comparison by code points. -/
def strLe (a b : String) : Bool :=
  charsLe a.data b.data

/-- Insert a string into a sorted list (ascending). -/
def insertSorted (a : String) : List String → List String
  | [] => [a]
  | b :: bs => if strLe a b then a :: b :: bs else b :: insertSorted a bs

/-- Sort strings ascending (pandas `groupby` presents group keys sorted). -/
def sortStr (l : List String) : List String :=
  l.foldr insertSorted []

/-- Distinct keys of a string column, sorted — the group keys of a pandas
`groupby` over that column. -/
def strKeys (l : List String) : List String :=
  sortStr l.dedup

/-- Group keys of `groupby('uuid')` on the measurement table. -/
def uuidKeys (meas : List MeasRow) : List String :=
  strKeys (meas.map (·.uuid))

/-- Group keys of `groupby('measurement_type')` within a group. -/
def typeKeys (meas : List MeasRow) : List String :=
  strKeys (meas.map (·.measurement_type))

/-- Group keys of `groupby('measurement_desc')` within a group: pandas drops
null keys, so only the present (non-null) descriptions are keys. -/
def descKeys (meas : List MeasRow) : List String :=
  strKeys (meas.filterMap (·.measurement_desc))

/-- Values of the checkbox entries presented by `prompt_for_uuid`: one entry
per metadata row, carrying its uuid. -/
def uuidChoices (meta : List MetaRow) : List String :=
  meta.map (·.uuid)

/-- `prompt_for_uuid` with the user's selection `chosen_uuids` made explicit:
narrows both tables to the chosen uuids (plain `isin`, no wrapping here). -/
def prompt_for_uuid (meas : List MeasRow) (meta : List MetaRow)
    (chosen_uuids : List String) : List MeasRow × List MetaRow :=
  (meas.filter (fun r => chosen_uuids.contains r.uuid),
   meta.filter (fun r => chosen_uuids.contains r.uuid))

/-- Values of the checkbox entries presented by `prompt_for_types`: for each
uuid group, for each measurement-type group inside it, the list of row ids of
that group (the separators carry no value). -/
def typeChoiceValues (meas : List MeasRow) : List (List Nat) :=
  (uuidKeys meas).flatMap (fun u =>
    let grp := meas.filter (fun r => r.uuid == u)
    (typeKeys grp).map (fun t =>
      (grp.filter (fun r => r.measurement_type == t)).map (·.id)))

/-- `prompt_for_types` with the user's selection made explicit: the selected
values are flattened (`chain(*prompt_res)`) to a row-id list and the table is
narrowed to those ids. -/
def prompt_for_types (meas : List MeasRow) (sel : List (List Nat)) :
    List MeasRow :=
  let idx := sel.flatten
  meas.filter (fun r => idx.contains r.id)

/-- Values of the checkbox entries presented by `prompt_for_description`: for
each (uuid, measurement_type) group, for each description group inside it
(null descriptions dropped by `groupby`), the list of row ids of that group. -/
def descChoiceValues (meas : List MeasRow) : List (List Nat) :=
  (uuidKeys meas).flatMap (fun u =>
    let ugrp := meas.filter (fun r => r.uuid == u)
    (typeKeys ugrp).flatMap (fun t =>
      let grp := ugrp.filter (fun r => r.measurement_type == t)
      (descKeys grp).map (fun d =>
        (grp.filter (fun r => r.measurement_desc == some d)).map (·.id))))

/-- `prompt_for_description` with the user's selection made explicit. -/
def prompt_for_description (meas : List MeasRow) (sel : List (List Nat)) :
    List MeasRow :=
  let idx := sel.flatten
  meas.filter (fun r => idx.contains r.id)

/-- Modelled from the spec: `pickle.loads` on a trusted payload — an opaque
total deserialization, represented as the identity on the raw bytes. -/
def pickle_loads (b : List Nat) : List Nat := b

/-- Row of the payload query of `join_remaining_columns`, after
deserialization (columns `id`, `measurement_time`, `measurement_data`,
`measurement_unit`). -/
structure SerializedRow where
  id : Nat
  measurement_time : Nat
  measurement_data : List Nat
  measurement_unit : String
deriving DecidableEq

/-- A row of the final flat table: measurement-index columns joined with the
payload columns (on `id`) and the metadata columns (on `uuid`). -/
structure FlatRow where
  id : Nat
  uuid : String
  measurement_type : String
  measurement_desc : Option String
  measurement_time : Nat
  measurement_data : List Nat
  measurement_unit : String
  meta_desc : Option String
  meta_start_time : Nat
deriving DecidableEq

/-- Inner merge of two tables on a key, as pandas `DataFrame.merge` with
`how='inner'`: for each left row in order, one output row per matching right
row. -/
def pdMerge (left : List α) (right : List β) (keyL : α → κ) (keyR : β → κ)
    [BEq κ] (mk : α → β → γ) : List γ :=
  left.flatMap (fun a => (right.filter (fun b => keyR b == keyL a)).map (mk a))

/-- The `serialized_df` of `join_remaining_columns`: the payload query
restricted to the surviving ids (`Measurement.id.in_(meas_df['id'])`), with
the value column deserialized. -/
def serializedRows (meas : List MeasRow) (dbMeas : List Measurement) :
    List SerializedRow :=
  (dbMeas.filter (fun m => (meas.map (fun r : MeasRow => r.id)).contains m.id)).map
    (fun m =>
      { id := m.id, measurement_time := m.datetime,
        measurement_data := pickle_loads m.value, measurement_unit := m.unit })

/-- `join_remaining_columns`: fetch the payload columns for the surviving ids,
deserialize, merge onto the surviving measurement rows by `id`, then merge the
metadata columns by `uuid`. -/
def join_remaining_columns (meas : List MeasRow) (meta : List MetaRow)
    (dbMeas : List Measurement) : List FlatRow :=
  let serialized := serializedRows meas dbMeas
  let merged := pdMerge meas serialized (fun r => r.id) (fun s => s.id)
    (fun r s => (r, s))
  pdMerge merged meta (fun p => p.1.uuid) (fun mt => mt.uuid) (fun p mt =>
    { id := p.1.id, uuid := p.1.uuid,
      measurement_type := p.1.measurement_type,
      measurement_desc := p.1.measurement_desc,
      measurement_time := p.2.measurement_time,
      measurement_data := p.2.measurement_data,
      measurement_unit := p.2.measurement_unit,
      meta_desc := mt.meta_desc, meta_start_time := mt.meta_start_time })

/-- Group keys of the final `groupby('measurement_type')` in `main`. -/
def flatTypeKeys (df : List FlatRow) : List String :=
  strKeys (df.map (·.measurement_type))

/-- The final grouping of `main`: `df.groupby('measurement_type')` as the list
of (key, group) pairs in sorted key order. -/
def groupby_measurement_type (df : List FlatRow) :
    List (String × List FlatRow) :=
  (flatTypeKeys df).map (fun t => (t, df.filter (fun r => r.measurement_type == t)))

/-- What a visualizer's `plot()` may return: a single figure or a list of
figures (figures are modelled as opaque handles). -/
inductive PlotResult where
  | single (f : Nat)
  | figureList (fs : List Nat)
deriving DecidableEq

/-- Modelled from the spec: a visualizer class — consumes the group table and
the backend name, produces one or more figures. -/
def Visualizer : Type :=
  List FlatRow → String → PlotResult

/-- The rendering loop of `main`: for each type group, look up the registered
visualizer (`type_to_visualizer_class_mapper[meas_type]`, a fatal `KeyError`
when absent — the mapper lives outside `src/` and is taken as a parameter),
instantiate it on the group and backend, and collect the `plot()` results. -/
def collectPlots (mapper : String → Option Visualizer) (backend : String) :
    List (String × List FlatRow) → Except String (List PlotResult)
  | [] => Except.ok []
  | (t, g) :: rest =>
    match mapper t with
    | none => Except.error ("KeyError: " ++ t)
    | some vis =>
      match collectPlots mapper backend rest with
      | Except.error e => Except.error e
      | Except.ok figs => Except.ok (vis g backend :: figs)

/-- Python iteration over one collected `plot()` result, as demanded by
`chain(*figs)`: a list of figures iterates to its elements, a single figure
object is not iterable and raises `TypeError`. -/
def pyIter : PlotResult → Except String (List Nat)
  | PlotResult.single _ => Except.error "TypeError: 'Figure' object is not iterable"
  | PlotResult.figureList fs => Except.ok fs

/-- `figs = list(chain(*figs))`: concatenate the collected results, iterating
each one. -/
def chainStar : List PlotResult → Except String (List Nat)
  | [] => Except.ok []
  | r :: rest =>
    match pyIter r with
    | Except.error e => Except.error e
    | Except.ok fs =>
      match chainStar rest with
      | Except.error e => Except.error e
      | Except.ok rest2 => Except.ok (fs ++ rest2)

/-- The `main` pipeline after argument parsing, with the interactive
selections passed explicitly: load, filter by args, run each prompt stage
whose criterion is absent, join the payload, group by type, render, flatten.
The returned value is the final flattened figure list; `Except.error` is an
uncaught exception (non-zero exit), `Except.ok` is normal completion (exit
code 0). -/
def mainPipeline (db : Db) (args : Args) (mapper : String → Option Visualizer)
    (selU : List String) (selT selD : List (List Nat)) :
    Except String (List Nat) :=
  let tables := create_dfs db
  match filter_by_args tables.1 tables.2 args with
  | Except.error e => Except.error e
  | Except.ok (meas0, meta0) =>
    let pair :=
      if args.uuids.isNone then prompt_for_uuid meas0 meta0 selU
      else (meas0, meta0)
    let meas1 := if args.types.isNone then prompt_for_types pair.1 selT else pair.1
    let meas2 :=
      if args.descriptions.isNone then prompt_for_description meas1 selD else meas1
    let df := join_remaining_columns meas2 pair.2 db.measurements
    match collectPlots mapper args.plotting_backend (groupby_measurement_type df) with
    | Except.error e => Except.error e
    | Except.ok figs => chainStar figs

/-- At least one criterion was supplied (is truthy). -/
def someCriterionSupplied (args : Args) : Prop :=
  truthy args.uuids = true ∨ truthy args.types = true ∨ truthy args.descriptions = true

/-- A supplied criterion set is disjoint from the values present in a column. -/
def criterionDisjoint (present : List String) : Option (List String) → Prop
  | some vs => ∀ v ∈ present, v ∉ vs
  | none => True

/-- Every supplied criterion set is disjoint from the values present in its
column of the measurement-index table. -/
def suppliedCriteriaDisjoint (meas : List MeasRow) (args : Args) : Prop :=
  criterionDisjoint (meas.map (·.uuid)) args.uuids ∧
  criterionDisjoint (meas.map (·.measurement_type)) args.types ∧
  criterionDisjoint (meas.filterMap (·.measurement_desc)) args.descriptions

/-- Scenario store of the spec: run `A` has one latency and one memory
measurement, run `B` has one latency measurement. -/
def measScenario : List MeasRow :=
  [{ id := 1, uuid := "A", measurement_type := "latency", measurement_desc := some "d1" },
   { id := 2, uuid := "A", measurement_type := "memory", measurement_desc := some "d2" },
   { id := 3, uuid := "B", measurement_type := "latency", measurement_desc := some "d3" }]

/-- Metadata for the scenario store: the two runs. -/
def metaScenario : List MetaRow :=
  [{ uuid := "A", meta_desc := none, meta_start_time := 10 },
   { uuid := "B", meta_desc := none, meta_start_time := 20 }]

/-- Arguments supplying only `types=["latency"]`. -/
def argsTypesLatency : Args :=
  { uuids := none, types := some ["latency"], descriptions := none,
    plotting_backend := "matplotlib" }

/-- Arguments supplying no criterion at all. -/
def argsNone : Args :=
  { uuids := none, types := none, descriptions := none,
    plotting_backend := "matplotlib" }

/-- Arguments supplying no criterion, with a chosen plotting backend. -/
def argsNoneWith (backend : String) : Args :=
  { uuids := none, types := none, descriptions := none,
    plotting_backend := backend }

/-- Arguments supplying only the non-existent run id `"nonexistent"`. -/
def argsUuidNonexistent : Args :=
  { uuids := some ["nonexistent"], types := none, descriptions := none,
    plotting_backend := "matplotlib" }

/-- A measurement-index table holding a single row of run `A`. -/
def measRunAOnly : List MeasRow :=
  [{ id := 1, uuid := "A", measurement_type := "latency", measurement_desc := some "d1" }]

/-- A flat row of measurement type `"latency"`. -/
def flatLatency : FlatRow :=
  { id := 1, uuid := "A", measurement_type := "latency", measurement_desc := some "d1",
    measurement_time := 5, measurement_data := [1], measurement_unit := "s",
    meta_desc := none, meta_start_time := 10 }

/-- A flat row of measurement type `"memory"`. -/
def flatMemory : FlatRow :=
  { id := 2, uuid := "A", measurement_type := "memory", measurement_desc := some "d2",
    measurement_time := 6, measurement_data := [2], measurement_unit := "b",
    meta_desc := none, meta_start_time := 10 }

/-- A two-type flat table for exercising the final grouping. -/
def dfTwoTypes : List FlatRow :=
  [flatLatency, flatMemory]

/-- A persisted measurement table with two records (ids 1 and 3). -/
def dbMeasTwo : List Measurement :=
  [{ id := 1, benchmark_uuid := "A", measurement_type := "latency",
     description := some "d1", datetime := 5, value := [1], unit := "s" },
   { id := 3, benchmark_uuid := "B", measurement_type := "latency",
     description := some "d3", datetime := 7, value := [3], unit := "s" }]

/-- The measurement-index rows of `dbMeasTwo`. -/
def measTwo : List MeasRow :=
  [{ id := 1, uuid := "A", measurement_type := "latency", measurement_desc := some "d1" },
   { id := 3, uuid := "B", measurement_type := "latency", measurement_desc := some "d3" }]

/-- A row with a null description. -/
def rowNullDesc : MeasRow :=
  { id := 1, uuid := "A", measurement_type := "latency", measurement_desc := none }

/-- A row with an empty-string description. -/
def rowEmptyDesc : MeasRow :=
  { id := 2, uuid := "A", measurement_type := "latency", measurement_desc := some "" }

/-- A table mixing a null-description row and an empty-string-description row. -/
def measMixedDesc : List MeasRow :=
  [rowNullDesc, rowEmptyDesc]

/-- A concrete store with the two measurements and two runs. -/
def dbTwo : Db :=
  { measurements := dbMeasTwo,
    metadata := [{ uuid := "A", description := none, start_time := 10 },
                 { uuid := "B", description := none, start_time := 20 }] }

/-- The measurement types presented at the type stage over a table: the type
group keys under each uuid group (one presented entry per key). -/
def presentedTypes (meas : List MeasRow) : List String :=
  (uuidKeys meas).flatMap (fun u =>
    typeKeys (meas.filter (fun r => r.uuid == u)))

/-- The descriptions presented at the description stage over a table: the
description group keys under each (uuid, type) group. -/
def presentedDescs (meas : List MeasRow) : List String :=
  (uuidKeys meas).flatMap (fun u =>
    let ugrp := meas.filter (fun r => r.uuid == u)
    (typeKeys ugrp).flatMap (fun t =>
      descKeys (ugrp.filter (fun r => r.measurement_type == t))))

/-- Modelled from the spec (refinement side of the associativity property):
applying the three criteria corresponding to the staged selections as direct
membership filters in one step over the original table. -/
def directFilter (meas : List MeasRow) (us ts ds : List String) :
    List MeasRow :=
  meas.filter (fun r =>
    us.contains r.uuid && ts.contains r.measurement_type &&
      (match r.measurement_desc with
       | some d => ds.contains d
       | none => false))

/-- One interactive stage executed with the full selection (the user ticks
every presented choice): 0 = run-id stage, 1 = type stage,
2 = description stage. -/
def applyStageFull (i : Nat) (p : List MeasRow × List MetaRow) :
    List MeasRow × List MetaRow :=
  if i = 0 then prompt_for_uuid p.1 p.2 (uuidChoices p.2)
  else if i = 1 then (prompt_for_types p.1 (typeChoiceValues p.1), p.2)
  else (prompt_for_description p.1 (descChoiceValues p.1), p.2)

/-- Run the interactive stages in the given order, each with its full
selection computed from the table it receives. -/
def applyStagesFull (order : List Nat) (p : List MeasRow × List MetaRow) :
    List MeasRow × List MetaRow :=
  order.foldl (fun q i => applyStageFull i q) p

theorem truthy_iff {o : Option (List String)} :
    truthy o = true ↔ ∃ v vs, o = some (v :: vs) := by
  cases o with
  | none => simp [truthy]
  | some l => cases l <;> simp [truthy]

theorem strList_beq_str (vs : List String) (x : String) :
    (PdVal.str x == PdVal.strList vs) = false := by
  simp

theorem filter_isin_str_wrapped_nil {α : Type} (m : List α) (f : α → String)
    (vs : List String) :
    m.filter (fun r => pdIsin (PdVal.str (f r)) [PdVal.strList vs]) = [] := by
  induction m with
  | nil => rfl
  | cons a t ih => simp [pdIsin, List.filter_cons, ih]

theorem filter_isin_desc_wrapped_nil (m : List MeasRow) (vs : List String) :
    m.filter (fun r => pdIsin (descVal r.measurement_desc) [PdVal.strList vs]) = [] := by
  induction m with
  | nil => rfl
  | cons a t ih =>
    have hv : pdIsin (descVal a.measurement_desc) [PdVal.strList vs] = false := by
      cases h : a.measurement_desc <;> simp [descVal, pdIsin]
    simp [List.filter_cons, hv, ih]

theorem filter_by_args_error_of_uuids (meas : List MeasRow) (meta : List MetaRow)
    (args : Args) (v : String) (vs : List String) (h : args.uuids = some (v :: vs)) :
    filter_by_args meas meta args =
      Except.error "There are no database entries with the given uuids, types and descriptions." := by
  unfold filter_by_args
  rw [h]
  cases hot : args.types <;> cases hod : args.descriptions <;>
    simp [filter_isin_str_wrapped_nil, filter_isin_desc_wrapped_nil]

theorem filter_by_args_error_of_types (meas : List MeasRow) (meta : List MetaRow)
    (args : Args) (v : String) (vs : List String) (h : args.types = some (v :: vs)) :
    filter_by_args meas meta args =
      Except.error "There are no database entries with the given uuids, types and descriptions." := by
  unfold filter_by_args
  rw [h]
  cases hou : args.uuids <;> cases hod : args.descriptions <;>
    simp [filter_isin_str_wrapped_nil, filter_isin_desc_wrapped_nil]

theorem filter_by_args_error_of_descriptions (meas : List MeasRow) (meta : List MetaRow)
    (args : Args) (v : String) (vs : List String) (h : args.descriptions = some (v :: vs)) :
    filter_by_args meas meta args =
      Except.error "There are no database entries with the given uuids, types and descriptions." := by
  unfold filter_by_args
  rw [h]
  cases hou : args.uuids <;> cases hot : args.types <;>
    simp [filter_isin_str_wrapped_nil, filter_isin_desc_wrapped_nil]

theorem empty_guard_ok {x : List MeasRow} {p : List MetaRow} {s : String}
    {m : List MeasRow} {mt : List MetaRow}
    (h : (if x.isEmpty then (Except.error s : Except String (List MeasRow × List MetaRow))
          else Except.ok (x, p)) = Except.ok (m, mt)) : m ≠ [] := by
  by_cases hc : x.isEmpty
  · simp [hc] at h
  · rw [if_neg hc] at h
    injection h with h2
    injection h2 with hm hmt
    subst hm
    simpa using hc

theorem filter_by_args_ok_ne_nil (meas : List MeasRow) (meta : List MetaRow)
    (args : Args) (m : List MeasRow) (mt : List MetaRow)
    (hok : filter_by_args meas meta args = Except.ok (m, mt)) : m ≠ [] := by
  unfold filter_by_args at hok
  exact empty_guard_ok hok

theorem empty_guard_ok_parts {x : List MeasRow} {p : List MetaRow} {s : String}
    {m : List MeasRow} {mt : List MetaRow}
    (h : (if x.isEmpty then (Except.error s : Except String (List MeasRow × List MetaRow))
          else Except.ok (x, p)) = Except.ok (m, mt)) : m = x ∧ mt = p := by
  by_cases hc : x.isEmpty
  · simp [hc] at h
  · rw [if_neg hc] at h
    injection h with h2
    injection h2 with hm hmt
    exact ⟨hm.symm, hmt.symm⟩

instance instDecCriterionDisjoint (present : List String) (o : Option (List String)) :
    Decidable (criterionDisjoint present o) :=
  match o with
  | some vs => inferInstanceAs (Decidable (∀ v ∈ present, v ∉ vs))
  | none => inferInstanceAs (Decidable True)

instance instDecSuppliedCriteriaDisjoint (meas : List MeasRow) (args : Args) :
    Decidable (suppliedCriteriaDisjoint meas args) :=
  inferInstanceAs (Decidable (criterionDisjoint (meas.map (fun r : MeasRow => r.uuid)) args.uuids ∧
    criterionDisjoint (meas.map (fun r : MeasRow => r.measurement_type)) args.types ∧
    criterionDisjoint (meas.filterMap (fun r : MeasRow => r.measurement_desc)) args.descriptions))

instance instDecSomeCriterionSupplied (args : Args) :
    Decidable (someCriterionSupplied args) :=
  inferInstanceAs (Decidable (truthy args.uuids = true ∨ truthy args.types = true ∨
    truthy args.descriptions = true))

/-- C1: the spec states that `filter_by_args` applies each supplied criterion
as a membership predicate and that filtering the two-run scenario store with
`types=["latency"]` returns exactly the two latency rows.  The code instead
wraps the criterion list in another list (`isin([args.types])`), so no row
matches and the empty-result exception is raised at that very input — even
though the two latency rows (ids 1 and 3) are present, as the second conjunct
shows under genuine membership filtering. -/
theorem c1_scenario_code_raises_instead_of_filtering :
    filter_by_args measScenario metaScenario argsTypesLatency =
      Except.error "There are no database entries with the given uuids, types and descriptions." ∧
    (measScenario.filter (fun r => ["latency"].contains r.measurement_type)).map (·.id) = [1, 3] :=
  ⟨rfl, rfl⟩

/-- C2: whenever at least one criterion is supplied and every supplied
criterion set is disjoint from the values present in the measurement-index
table, `filter_by_args` raises the "no matching records" exception; and
whenever it returns successfully, the returned measurement-index table is
non-empty — it never returns an empty-but-successful result. -/
theorem c2_disjoint_criteria_fatal_never_empty_success
    (meas : List MeasRow) (meta : List MetaRow) (args : Args) :
    (someCriterionSupplied args → suppliedCriteriaDisjoint meas args →
      filter_by_args meas meta args =
        Except.error "There are no database entries with the given uuids, types and descriptions.") ∧
    (∀ m mt, filter_by_args meas meta args = Except.ok (m, mt) → m ≠ []) := by
  constructor
  · intro hsup _hdisj
    rcases hsup with h | h | h <;> obtain ⟨v, vs, hv⟩ := truthy_iff.mp h
    · exact filter_by_args_error_of_uuids meas meta args v vs hv
    · exact filter_by_args_error_of_types meas meta args v vs hv
    · exact filter_by_args_error_of_descriptions meas meta args v vs hv
  · intro m mt hok
    exact filter_by_args_ok_ne_nil meas meta args m mt hok

/-- Witness for C2: `run_ids=["nonexistent"]` over the scenario store is a
supplied criterion disjoint from all present values, and the filter indeed
raises the "no matching records" exception there. -/
theorem c2_disjoint_criteria_fatal_never_empty_success_witness :
    filter_by_args measScenario metaScenario argsUuidNonexistent =
      Except.error "There are no database entries with the given uuids, types and descriptions." :=
  (c2_disjoint_criteria_fatal_never_empty_success measScenario metaScenario
    argsUuidNonexistent).1 (by decide) (by decide)

/-- C4 counterexample: run with no criteria supplied over a store whose
metadata table holds runs `A` and `B` while the measurement-index table holds
only a row of run `A`.  `filter_by_args` succeeds and returns the metadata
table unchanged, so the returned metadata still contains run id `"B"`, which
is not present in the narrowed measurement-index table — refuting the claim
that the returned metadata table contains only surviving run_ids. -/
theorem c4_meta_not_restricted_counterexample :
    filter_by_args measRunAOnly metaScenario argsNone =
      Except.ok (measRunAOnly, metaScenario) ∧
    "B" ∈ metaScenario.map (·.uuid) ∧ "B" ∉ measRunAOnly.map (·.uuid) :=
  ⟨rfl, by decide, by decide⟩

/-- C4 amended: `filter_by_args` restricts the metadata table only when the
run-id criterion is supplied; when `args.uuids` is absent, the metadata table
is returned unchanged regardless of any supplied measurement_types or
descriptions, and may therefore contain run_ids absent from the narrowed
measurement-index table. -/
theorem c4_meta_unchanged_without_uuid_criterion
    (meas : List MeasRow) (meta : List MetaRow) (args : Args)
    (hu : args.uuids = none) (m : List MeasRow) (mt : List MetaRow)
    (hok : filter_by_args meas meta args = Except.ok (m, mt)) : mt = meta := by
  unfold filter_by_args at hok
  rw [hu] at hok
  exact (empty_guard_ok_parts hok).2

/-- Witness for the amended C4 at a concrete input: a criteria-free run over
the one-row store returns the two-run metadata table unchanged. -/
theorem c4_meta_unchanged_without_uuid_criterion_witness :
    metaScenario = metaScenario :=
  c4_meta_unchanged_without_uuid_criterion measRunAOnly metaScenario argsNone rfl
    measRunAOnly metaScenario rfl

theorem mem_insertSorted {x a : String} {l : List String} :
    x ∈ insertSorted a l ↔ x = a ∨ x ∈ l := by
  induction l with
  | nil => simp [insertSorted]
  | cons b bs ih =>
    cases h : strLe a b
    · simp [insertSorted, h, ih]
      tauto
    · simp [insertSorted, h]

theorem insertSorted_perm (a : String) (l : List String) :
    (insertSorted a l).Perm (a :: l) := by
  induction l with
  | nil => exact List.Perm.refl _
  | cons b bs ih =>
    cases h : strLe a b
    · have h1 : insertSorted a (b :: bs) = b :: insertSorted a bs := by
        simp [insertSorted, h]
      rw [h1]
      exact (List.Perm.cons b ih).trans (List.Perm.swap a b bs)
    · have h1 : insertSorted a (b :: bs) = a :: b :: bs := by
        simp [insertSorted, h]
      rw [h1]

theorem sortStr_perm (l : List String) : (sortStr l).Perm l := by
  induction l with
  | nil => exact List.Perm.refl _
  | cons a t ih =>
    have h1 : sortStr (a :: t) = insertSorted a (sortStr t) := rfl
    rw [h1]
    exact (insertSorted_perm a (sortStr t)).trans (List.Perm.cons a ih)

theorem mem_sortStr {x : String} {l : List String} : x ∈ sortStr l ↔ x ∈ l :=
  (sortStr_perm l).mem_iff

theorem mem_strKeys {x : String} {l : List String} : x ∈ strKeys l ↔ x ∈ l := by
  unfold strKeys
  rw [mem_sortStr, List.mem_dedup]

theorem nodup_strKeys (l : List String) : (strKeys l).Nodup :=
  ((sortStr_perm l.dedup).nodup_iff).mpr (List.nodup_dedup l)

theorem filter_partition_perm (df : List FlatRow) (keys : List String)
    (hnd : keys.Nodup) (hcov : ∀ r ∈ df, r.measurement_type ∈ keys) :
    ((keys.map (fun t => df.filter (fun r => r.measurement_type == t))).flatten).Perm df := by
  induction keys generalizing df with
  | nil =>
    cases df with
    | nil => exact List.Perm.refl _
    | cons r t => exact absurd (hcov r (by simp)) (by simp)
  | cons k ks ih =>
    have hk : k ∉ ks := (List.nodup_cons.mp hnd).1
    have hkt : ∀ t ∈ ks, df.filter (fun r => r.measurement_type == t)
        = (df.filter (fun r => !(r.measurement_type == k))).filter
            (fun r => r.measurement_type == t) := by
      intro t ht
      rw [List.filter_filter]
      apply List.filter_congr
      intro r _
      by_cases h : r.measurement_type = t
      · have htk : ¬t = k := fun hkk => hk (hkk ▸ ht)
        simp [h, htk]
      · simp [h]
    have hcov2 : ∀ r ∈ df.filter (fun r => !(r.measurement_type == k)),
        r.measurement_type ∈ ks := by
      intro r hr
      obtain ⟨hrm, hrp⟩ := List.mem_filter.mp hr
      have := hcov r hrm
      simp only [List.mem_cons] at this
      rcases this with h | h
      · exfalso
        simp [h] at hrp
      · exact h
    have hmapeq : ks.map (fun t => df.filter (fun r => r.measurement_type == t))
        = ks.map (fun t => (df.filter (fun r => !(r.measurement_type == k))).filter
            (fun r => r.measurement_type == t)) :=
      List.map_congr_left hkt
    have hstep :
        ((k :: ks).map (fun t => df.filter (fun r => r.measurement_type == t))).flatten
          = df.filter (fun r => r.measurement_type == k) ++
            (ks.map (fun t => (df.filter (fun r => !(r.measurement_type == k))).filter
              (fun r => r.measurement_type == t))).flatten := by
      rw [List.map_cons, List.flatten_cons, hmapeq]
    rw [hstep]
    have hrec := ih (df.filter (fun r => !(r.measurement_type == k)))
      (List.nodup_cons.mp hnd).2 hcov2
    exact ((hrec.append_left _).trans
      (List.filter_append_perm (fun r => r.measurement_type == k) df))

/-- C6: the Render Dispatcher's grouping of the joined flat table by
measurement_type is a partition: the concatenation of all group row lists is
a permutation of the full joined table, the group keys are pairwise distinct,
and no row belongs to two different groups. -/
theorem c6_groupby_is_partition (df : List FlatRow) :
    (((groupby_measurement_type df).map Prod.snd).flatten).Perm df ∧
    ((groupby_measurement_type df).map Prod.fst).Nodup ∧
    (∀ g1 ∈ groupby_measurement_type df, ∀ g2 ∈ groupby_measurement_type df,
      g1.1 ≠ g2.1 → ∀ r ∈ g1.2, r ∉ g2.2) := by
  refine ⟨?_, ?_, ?_⟩
  · have h1 : (groupby_measurement_type df).map Prod.snd
        = (flatTypeKeys df).map (fun t => df.filter (fun r => r.measurement_type == t)) := by
      simp [groupby_measurement_type, List.map_map]
    rw [h1]
    exact filter_partition_perm df (flatTypeKeys df) (nodup_strKeys _)
      (fun r hr => mem_strKeys.mpr (List.mem_map_of_mem (fun x : FlatRow => x.measurement_type) hr))
  · have h2 : (groupby_measurement_type df).map Prod.fst = flatTypeKeys df := by
      simp [groupby_measurement_type, List.map_map, Function.comp_def]
    rw [h2]
    exact nodup_strKeys _
  · intro g1 hg1 g2 hg2 hne r hr1 hr2
    obtain ⟨t1, _ht1, heq1⟩ := List.mem_map.mp hg1
    obtain ⟨t2, _ht2, heq2⟩ := List.mem_map.mp hg2
    subst heq1
    subst heq2
    have e1 : r.measurement_type = t1 := by simpa using (List.mem_filter.mp hr1).2
    have e2 : r.measurement_type = t2 := by simpa using (List.mem_filter.mp hr2).2
    exact hne (by simp [← e1, ← e2])

/-- Witness for C6 at a concrete two-type table: the latency row does not
appear in the memory group. -/
theorem c6_groupby_is_partition_witness : flatLatency ∉ [flatMemory] :=
  (c6_groupby_is_partition dfTwoTypes).2.2 ("latency", [flatLatency]) (by decide)
    ("memory", [flatMemory]) (by decide) (by decide) flatLatency (by decide)

/-- C7: the spec claims the figure-collection flattening is total for both
renderer result shapes.  The source's `figs = list(chain(*figs))` iterates
each collected result, so a renderer returning a single (non-iterable) figure
makes the flattening raise `TypeError`; only the list-of-figures shape
flattens successfully, as the two conjuncts show. -/
theorem c7_chain_fails_on_single_figure :
    chainStar [PlotResult.single 0] =
      Except.error "TypeError: 'Figure' object is not iterable" ∧
    chainStar [PlotResult.figureList [1, 2], PlotResult.figureList [3]] =
      Except.ok [1, 2, 3] :=
  ⟨rfl, rfl⟩

theorem collectPlots_error_of_unregistered (mapper : String → Option Visualizer)
    (backend : String) (groups : List (String × List FlatRow)) (t : String)
    (ht : t ∈ groups.map Prod.fst) (hm : mapper t = none) :
    ∃ e, collectPlots mapper backend groups = Except.error e := by
  induction groups with
  | nil => simp at ht
  | cons g rest ih =>
    obtain ⟨gt, gg⟩ := g
    simp only [List.map_cons, List.mem_cons] at ht
    cases hg : mapper gt with
    | none => exact ⟨"KeyError: " ++ gt, by simp [collectPlots, hg]⟩
    | some vis =>
      have ht2 : t ∈ rest.map Prod.fst := by
        rcases ht with h | h
        · exfalso
          rw [h] at hm
          rw [hm] at hg
          cases hg
        · exact h
      obtain ⟨e, he⟩ := ih ht2
      exact ⟨e, by simp [collectPlots, hg, he]⟩

/-- C8: if some measurement_type present in the final grouped table has no
registered renderer, the render loop of `main` raises a fatal `KeyError` —
it never returns a figure list, so the group is neither skipped nor partially
rendered in a successful result. -/
theorem c8_unregistered_renderer_fatal (mapper : String → Option Visualizer)
    (backend : String) (df : List FlatRow) (t : String)
    (hpresent : t ∈ (groupby_measurement_type df).map Prod.fst)
    (hunreg : mapper t = none) :
    ∃ e, collectPlots mapper backend (groupby_measurement_type df) = Except.error e :=
  collectPlots_error_of_unregistered mapper backend
    (groupby_measurement_type df) t hpresent hunreg

/-- Witness for C8: with an empty renderer registry, rendering the two-type
table fails with a lookup error. -/
theorem c8_unregistered_renderer_fatal_witness :
    ∃ e, collectPlots (fun _ => none) "matplotlib"
      (groupby_measurement_type dfTwoTypes) = Except.error e :=
  c8_unregistered_renderer_fatal (fun _ => none) "matplotlib" dfTwoTypes
    "latency" (by decide) rfl

theorem pdMerge_length_of_unique {α β γ κ : Type} [BEq κ] (left : List α)
    (right : List β) (keyL : α → κ) (keyR : β → κ) (mk : α → β → γ)
    (h : ∀ a ∈ left, (right.filter (fun b => keyR b == keyL a)).length = 1) :
    (pdMerge left right keyL keyR mk).length = left.length := by
  induction left with
  | nil => rfl
  | cons a t ih =>
    have hrest := ih (fun x hx => h x (List.mem_cons_of_mem _ hx))
    simp only [pdMerge, List.flatMap_cons, List.length_append, List.length_map] at *
    rw [h a (List.mem_cons_self a t), hrest]
    simp [Nat.add_comm]

theorem mem_pdMerge {α β γ κ : Type} [BEq κ] {left : List α} {right : List β}
    {keyL : α → κ} {keyR : β → κ} {mk : α → β → γ} {c : γ}
    (hc : c ∈ pdMerge left right keyL keyR mk) :
    ∃ a ∈ left, ∃ b ∈ right, (keyR b == keyL a) = true ∧ c = mk a b := by
  simp only [pdMerge, List.mem_flatMap, List.mem_map] at hc
  obtain ⟨a, ha, b, hb, hcb⟩ := hc
  obtain ⟨hbm, hbk⟩ := List.mem_filter.mp hb
  exact ⟨a, ha, b, hbm, hbk, hcb.symm⟩

theorem serialized_filter_length (dbMeas : List Measurement) (ids : List Nat)
    (i : Nat) (hi : ids.contains i = true) :
    (((dbMeas.filter (fun m => ids.contains m.id)).map (fun m =>
        ({ id := m.id, measurement_time := m.datetime,
           measurement_data := pickle_loads m.value,
           measurement_unit := m.unit } : SerializedRow))).filter
      (fun s => s.id == i)).length
      = (dbMeas.filter (fun m => m.id == i)).length := by
  induction dbMeas with
  | nil => rfl
  | cons m t ih =>
    by_cases h : m.id = i
    · have hm : i ∈ ids := List.elem_iff.mp hi
      simpa [List.filter_cons, h, hm] using ih
    · by_cases hc : m.id ∈ ids
      · simpa [List.filter_cons, h, hc] using ih
      · simpa [List.filter_cons, h, hc] using ih

theorem mem_serializedRows {meas : List MeasRow} {dbMeas : List Measurement}
    {s : SerializedRow} (hs : s ∈ serializedRows meas dbMeas) :
    ∃ m ∈ dbMeas, s = SerializedRow.mk m.id m.datetime (pickle_loads m.value) m.unit := by
  simp only [serializedRows, List.mem_map] at hs
  obtain ⟨m, hm, hms⟩ := hs
  exact ⟨m, (List.mem_filter.mp hm).1, hms.symm⟩

/-- C5: under the data-model invariants — each surviving row's id identifies
exactly one persisted measurement record, and each surviving row's run id
exactly one metadata row — the Payload Joiner produces exactly one flat row
per surviving measurement-index row (no fan-out or fan-in in either merge),
and every flat row's joined columns are populated from its matching persisted
record (after deserialization) and matching metadata row, so no joined column
is ever left unmatched. -/
theorem c5_join_one_flat_row_per_surviving_row (meas : List MeasRow)
    (meta : List MetaRow) (dbMeas : List Measurement)
    (hid : ∀ r ∈ meas, (dbMeas.filter (fun m => m.id == r.id)).length = 1)
    (hfk : ∀ r ∈ meas, (meta.filter (fun mt => mt.uuid == r.uuid)).length = 1) :
    (join_remaining_columns meas meta dbMeas).length = meas.length ∧
    (∀ out ∈ join_remaining_columns meas meta dbMeas,
      ∃ m ∈ dbMeas, ∃ mt ∈ meta,
        out.id = m.id ∧ out.uuid = mt.uuid ∧
        out.measurement_time = m.datetime ∧
        out.measurement_data = pickle_loads m.value ∧
        out.measurement_unit = m.unit ∧
        out.meta_desc = mt.meta_desc ∧
        out.meta_start_time = mt.meta_start_time) := by
  have hinner : ∀ r ∈ meas,
      ((serializedRows meas dbMeas).filter (fun s => s.id == r.id)).length = 1 := by
    intro r hr
    have hi : ((meas.map (fun x : MeasRow => x.id)).contains r.id) = true :=
      List.elem_iff.mpr (List.mem_map_of_mem _ hr)
    calc ((serializedRows meas dbMeas).filter (fun s => s.id == r.id)).length
        = (dbMeas.filter (fun m => m.id == r.id)).length :=
          serialized_filter_length dbMeas (meas.map (fun x : MeasRow => x.id)) r.id hi
      _ = 1 := hid r hr
  have houter : ∀ p ∈ pdMerge meas (serializedRows meas dbMeas)
      (fun r => r.id) (fun s => s.id) (fun r s => (r, s)),
      (meta.filter (fun mt => mt.uuid == p.1.uuid)).length = 1 := by
    intro p hp
    obtain ⟨r, hr, s, hs, hk, hpe⟩ := mem_pdMerge hp
    subst hpe
    exact hfk r hr
  constructor
  · exact (pdMerge_length_of_unique _ _ _ _ _ houter).trans
      (pdMerge_length_of_unique _ _ _ _ _ hinner)
  · intro out hout
    obtain ⟨p, hp, mt, hmt, hk2, he⟩ :=
      mem_pdMerge (show out ∈ pdMerge (pdMerge meas (serializedRows meas dbMeas)
        (fun r => r.id) (fun s => s.id) (fun r s => (r, s))) meta
        (fun p => p.1.uuid) (fun mt => mt.uuid) (fun p mt =>
          { id := p.1.id, uuid := p.1.uuid,
            measurement_type := p.1.measurement_type,
            measurement_desc := p.1.measurement_desc,
            measurement_time := p.2.measurement_time,
            measurement_data := p.2.measurement_data,
            measurement_unit := p.2.measurement_unit,
            meta_desc := mt.meta_desc,
            meta_start_time := mt.meta_start_time }) from hout)
    obtain ⟨r, hr, s, hs, hk1, hpe⟩ := mem_pdMerge hp
    obtain ⟨m, hm, hse⟩ := mem_serializedRows hs
    have hsid : s.id = r.id := by simpa using hk1
    have hmtu : mt.uuid = p.1.uuid := by simpa using hk2
    refine ⟨m, hm, mt, hmt, ?_, ?_, ?_, ?_, ?_, ?_, ?_⟩ <;>
      subst hpe <;> subst he <;> subst hse <;> simp_all

/-- Witness for C5: joining the concrete two-row store yields exactly two
flat rows, one per surviving measurement row. -/
theorem c5_join_one_flat_row_per_surviving_row_witness :
    (join_remaining_columns measTwo metaScenario dbMeasTwo).length = measTwo.length :=
  (c5_join_one_flat_row_per_surviving_row measTwo metaScenario dbMeasTwo
    (by decide) (by decide)).1

theorem filter_by_args_no_criteria (meas : List MeasRow) (meta : List MetaRow)
    (args : Args) (hu : args.uuids = none) (ht : args.types = none)
    (hd : args.descriptions = none) (h : meas ≠ []) :
    filter_by_args meas meta args = Except.ok (meas, meta) := by
  unfold filter_by_args
  rw [hu, ht, hd]
  simp [List.isEmpty_iff, h]

theorem argsNoneWith_uuids (b : String) : (argsNoneWith b).uuids = none := rfl

theorem argsNoneWith_types (b : String) : (argsNoneWith b).types = none := rfl

theorem argsNoneWith_descriptions (b : String) :
    (argsNoneWith b).descriptions = none := rfl

theorem prompt_for_uuid_nil_sel (meas : List MeasRow) (meta : List MetaRow) :
    prompt_for_uuid meas meta [] = ([], []) := by
  unfold prompt_for_uuid
  simp

theorem prompt_for_types_nil_sel (meas : List MeasRow) :
    prompt_for_types meas [] = [] := by
  unfold prompt_for_types
  simp

theorem prompt_for_description_nil_sel (meas : List MeasRow) :
    prompt_for_description meas [] = [] := by
  unfold prompt_for_description
  simp

theorem prompt_for_types_empty_table (sel : List (List Nat)) :
    prompt_for_types [] sel = [] := rfl

theorem prompt_for_description_empty_table (sel : List (List Nat)) :
    prompt_for_description [] sel = [] := rfl

theorem join_remaining_columns_empty (meta : List MetaRow)
    (dbMeas : List Measurement) : join_remaining_columns [] meta dbMeas = [] := rfl

theorem groupby_measurement_type_empty : groupby_measurement_type [] = [] := rfl

theorem collectPlots_nil (mapper : String → Option Visualizer) (backend : String) :
    collectPlots mapper backend [] = Except.ok [] := rfl

theorem chainStar_nil : chainStar [] = Except.ok [] := rfl

/-- C9: with no criteria supplied (so all three prompts run) over a store
whose measurement table is non-empty, an empty selection at any prompt stage
yields an empty working table; the remaining prompt stages, the payload join
and the render dispatch all run without error on the empty table, no figure
is produced, and the pipeline completes normally (`Except.ok []`, exit
code 0). -/
theorem c9_empty_selection_completes_normally (db : Db) (backend : String)
    (mapper : String → Option Visualizer)
    (selU : List String) (selT selD : List (List Nat))
    (hne : db.measurements ≠ [])
    (hempty : selU = [] ∨ selT = [] ∨ selD = []) :
    mainPipeline db (argsNoneWith backend) mapper selU selT selD =
      Except.ok [] := by
  have hmeas : (create_dfs db).1 ≠ [] := by
    simp only [create_dfs, ne_eq, List.map_eq_nil_iff]
    exact hne
  have hfba := filter_by_args_no_criteria (create_dfs db).1 (create_dfs db).2
    (argsNoneWith backend) rfl rfl rfl hmeas
  unfold mainPipeline
  rcases hempty with h | h | h <;> subst h <;>
    simp [hfba, argsNoneWith_uuids, argsNoneWith_types, argsNoneWith_descriptions,
      prompt_for_uuid_nil_sel, prompt_for_types_nil_sel,
      prompt_for_description_nil_sel, prompt_for_types_empty_table,
      prompt_for_description_empty_table, join_remaining_columns_empty,
      groupby_measurement_type_empty, collectPlots_nil, chainStar_nil]

/-- Witness for C9: selecting nothing at the run-id prompt over the concrete
two-run store completes normally with no figures. -/
theorem c9_empty_selection_completes_normally_witness :
    mainPipeline dbTwo (argsNoneWith "matplotlib") (fun _ => none)
      [] [[1]] [[1]] = Except.ok [] :=
  c9_empty_selection_completes_normally dbTwo "matplotlib" (fun _ => none)
    [] [[1]] [[1]] (by decide) (Or.inl rfl)

theorem mem_descChoiceValues_flatten {meas : List MeasRow} {r : MeasRow}
    {d : String} (hr : r ∈ meas) (hd : r.measurement_desc = some d) :
    r.id ∈ (descChoiceValues meas).flatten := by
  rw [List.mem_flatten]
  refine ⟨(((meas.filter (fun x => x.uuid == r.uuid)).filter
      (fun x => x.measurement_type == r.measurement_type)).filter
      (fun x => x.measurement_desc == some d)).map (fun x => x.id), ?_, ?_⟩
  · simp only [descChoiceValues, List.mem_flatMap, List.mem_map]
    refine ⟨r.uuid, mem_strKeys.mpr (List.mem_map_of_mem _ hr),
      r.measurement_type, ?_, d, ?_, rfl⟩
    · have hrg : r ∈ meas.filter (fun x => x.uuid == r.uuid) :=
        List.mem_filter.mpr ⟨hr, by simp⟩
      exact mem_strKeys.mpr (List.mem_map_of_mem _ hrg)
    · have hrg2 : r ∈ (meas.filter (fun x => x.uuid == r.uuid)).filter
          (fun x => x.measurement_type == r.measurement_type) :=
        List.mem_filter.mpr ⟨List.mem_filter.mpr ⟨hr, by simp⟩, by simp⟩
      unfold descKeys
      rw [mem_strKeys]
      exact List.mem_filterMap.mpr ⟨r, hrg2, hd⟩
  · refine List.mem_map_of_mem _ (List.mem_filter.mpr ⟨?_, by simp [hd]⟩)
    exact List.mem_filter.mpr ⟨List.mem_filter.mpr ⟨hr, by simp⟩, by simp⟩

theorem descChoiceValues_flatten_sound {meas : List MeasRow} {i : Nat}
    (hi : i ∈ (descChoiceValues meas).flatten) :
    ∃ r ∈ meas, r.id = i ∧ r.measurement_desc ≠ none := by
  rw [List.mem_flatten] at hi
  obtain ⟨l, hl, hil⟩ := hi
  simp only [descChoiceValues, List.mem_flatMap, List.mem_map] at hl
  obtain ⟨u, _hu, t, _ht, d, _hd, hle⟩ := hl
  subst hle
  obtain ⟨x, hx, hxi⟩ := List.mem_map.mp hil
  obtain ⟨hx1, hx2⟩ := List.mem_filter.mp hx
  obtain ⟨hx3, _⟩ := List.mem_filter.mp hx1
  obtain ⟨hx4, _⟩ := List.mem_filter.mp hx3
  refine ⟨x, hx4, hxi, ?_⟩
  intro hnone
  rw [hnone] at hx2
  simp at hx2

/-- C10: in the description stage, every measurement row whose description is
null is omitted from the presented choices (the groupby drops null keys) and
therefore never survives the stage, even when the user selects every
presented choice; whereas a row whose description is present — the empty
string included — has its id among the presented choice values and survives
the full selection. -/
theorem c10_null_desc_dropped_present_desc_kept (meas : List MeasRow)
    (hnd : (meas.map (fun r : MeasRow => r.id)).Nodup) :
    ∀ r ∈ meas,
      (r.id ∈ (descChoiceValues meas).flatten ↔ r.measurement_desc ≠ none) ∧
      (r ∈ prompt_for_description meas (descChoiceValues meas) ↔
        r.measurement_desc ≠ none) := by
  intro r hr
  have hiff : r.id ∈ (descChoiceValues meas).flatten ↔
      r.measurement_desc ≠ none := by
    constructor
    · intro hid
      obtain ⟨x, hx, hxi, hxd⟩ := descChoiceValues_flatten_sound hid
      have hxr : x = r := List.inj_on_of_nodup_map hnd hx hr hxi
      rw [← hxr]
      exact hxd
    · intro hne
      cases hdesc : r.measurement_desc with
      | none => exact absurd hdesc hne
      | some d => exact mem_descChoiceValues_flatten hr hdesc
  refine ⟨hiff, ?_⟩
  simp only [prompt_for_description]
  rw [List.mem_filter]
  constructor
  · rintro ⟨_, hc⟩
    exact hiff.mp (by simpa using hc)
  · intro hne
    exact ⟨hr, by simpa using hiff.mpr hne⟩

/-- Witness for C10: in the mixed table, the empty-string-description row is
presented and survives the full selection, while the null-description row is
absent from the choices and dropped. -/
theorem c10_null_desc_dropped_present_desc_kept_witness :
    ((rowEmptyDesc.id ∈ (descChoiceValues measMixedDesc).flatten ↔
        rowEmptyDesc.measurement_desc ≠ none) ∧
      (rowEmptyDesc ∈ prompt_for_description measMixedDesc
          (descChoiceValues measMixedDesc) ↔
        rowEmptyDesc.measurement_desc ≠ none)) ∧
    ((rowNullDesc.id ∈ (descChoiceValues measMixedDesc).flatten ↔
        rowNullDesc.measurement_desc ≠ none) ∧
      (rowNullDesc ∈ prompt_for_description measMixedDesc
          (descChoiceValues measMixedDesc) ↔
        rowNullDesc.measurement_desc ≠ none)) :=
  ⟨c10_null_desc_dropped_present_desc_kept measMixedDesc (by decide)
      rowEmptyDesc (by decide),
   c10_null_desc_dropped_present_desc_kept measMixedDesc (by decide)
      rowNullDesc (by decide)⟩

theorem mem_typeChoiceValues_flatten {meas : List MeasRow} {r : MeasRow}
    (hr : r ∈ meas) : r.id ∈ (typeChoiceValues meas).flatten := by
  rw [List.mem_flatten]
  refine ⟨((meas.filter (fun x => x.uuid == r.uuid)).filter
      (fun x => x.measurement_type == r.measurement_type)).map (fun x => x.id),
    ?_, ?_⟩
  · simp only [typeChoiceValues, List.mem_flatMap, List.mem_map]
    refine ⟨r.uuid, mem_strKeys.mpr (List.mem_map_of_mem _ hr),
      r.measurement_type, ?_, rfl⟩
    have hrg : r ∈ meas.filter (fun x => x.uuid == r.uuid) :=
      List.mem_filter.mpr ⟨hr, by simp⟩
    exact mem_strKeys.mpr (List.mem_map_of_mem _ hrg)
  · exact List.mem_map_of_mem _
      (List.mem_filter.mpr ⟨List.mem_filter.mpr ⟨hr, by simp⟩, by simp⟩)

theorem mem_presentedTypes {meas : List MeasRow} {r : MeasRow}
    (hr : r ∈ meas) : r.measurement_type ∈ presentedTypes meas := by
  simp only [presentedTypes, List.mem_flatMap]
  refine ⟨r.uuid, mem_strKeys.mpr (List.mem_map_of_mem _ hr), ?_⟩
  have hrg : r ∈ meas.filter (fun x => x.uuid == r.uuid) :=
    List.mem_filter.mpr ⟨hr, by simp⟩
  exact mem_strKeys.mpr (List.mem_map_of_mem _ hrg)

theorem mem_presentedDescs {meas : List MeasRow} {r : MeasRow} {d : String}
    (hr : r ∈ meas) (hd : r.measurement_desc = some d) :
    d ∈ presentedDescs meas := by
  simp only [presentedDescs, List.mem_flatMap]
  refine ⟨r.uuid, mem_strKeys.mpr (List.mem_map_of_mem _ hr),
    r.measurement_type, ?_, ?_⟩
  · have hrg : r ∈ meas.filter (fun x => x.uuid == r.uuid) :=
      List.mem_filter.mpr ⟨hr, by simp⟩
    exact mem_strKeys.mpr (List.mem_map_of_mem _ hrg)
  · have hrg2 : r ∈ (meas.filter (fun x => x.uuid == r.uuid)).filter
        (fun x => x.measurement_type == r.measurement_type) :=
      List.mem_filter.mpr ⟨List.mem_filter.mpr ⟨hr, by simp⟩, by simp⟩
    unfold descKeys
    rw [mem_strKeys]
    exact List.mem_filterMap.mpr ⟨r, hrg2, hd⟩

theorem descChoice_flatten_mem_iff {meas : List MeasRow}
    (hnd : (meas.map (fun r : MeasRow => r.id)).Nodup) {r : MeasRow}
    (hr : r ∈ meas) :
    r.id ∈ (descChoiceValues meas).flatten ↔ r.measurement_desc ≠ none := by
  constructor
  · intro hid
    obtain ⟨x, hx, hxi, hxd⟩ := descChoiceValues_flatten_sound hid
    have hxr : x = r := List.inj_on_of_nodup_map hnd hx hr hxi
    rw [← hxr]
    exact hxd
  · intro hne
    cases hdesc : r.measurement_desc with
    | none => exact absurd hdesc hne
    | some d => exact mem_descChoiceValues_flatten hr hdesc

theorem nodup_ids_filter (p : MeasRow → Bool) {meas : List MeasRow}
    (h : (meas.map (fun r : MeasRow => r.id)).Nodup) :
    ((meas.filter p).map (fun r : MeasRow => r.id)).Nodup :=
  (((List.filter_sublist meas).map (fun r : MeasRow => r.id))).nodup h

theorem filter_comm_meas (p q : MeasRow → Bool) (l : List MeasRow) :
    (l.filter p).filter q = (l.filter q).filter p := by
  rw [List.filter_filter, List.filter_filter]
  exact List.filter_congr (fun r _ => Bool.and_comm _ _)

theorem stage0_full (m : List MeasRow) (mt : List MetaRow) :
    applyStageFull 0 (m, mt) =
      (m.filter (fun r => (uuidChoices mt).contains r.uuid), mt) := by
  simp only [applyStageFull, if_pos, prompt_for_uuid]
  simp only [Prod.mk.injEq]
  refine ⟨trivial, ?_⟩
  apply List.filter_eq_self.mpr
  intro x hx
  exact List.elem_iff.mpr (List.mem_map_of_mem _ hx)

theorem stage1_full (m : List MeasRow) (mt : List MetaRow) :
    applyStageFull 1 (m, mt) = (m, mt) := by
  have h1 : applyStageFull 1 (m, mt) =
      (prompt_for_types m (typeChoiceValues m), mt) := rfl
  rw [h1]
  simp only [Prod.mk.injEq]
  refine ⟨?_, trivial⟩
  simp only [prompt_for_types]
  apply List.filter_eq_self.mpr
  intro r hrm
  exact List.elem_iff.mpr (mem_typeChoiceValues_flatten hrm)

theorem stage2_full (m : List MeasRow) (mt : List MetaRow)
    (hnd : (m.map (fun r : MeasRow => r.id)).Nodup) :
    applyStageFull 2 (m, mt) =
      (m.filter (fun r => r.measurement_desc.isSome), mt) := by
  have h1 : applyStageFull 2 (m, mt) =
      (prompt_for_description m (descChoiceValues m), mt) := rfl
  rw [h1]
  simp only [Prod.mk.injEq]
  refine ⟨?_, trivial⟩
  simp only [prompt_for_description]
  apply List.filter_congr
  intro r hrm
  have hiff := descChoice_flatten_mem_iff hnd hrm
  cases hdesc : r.measurement_desc with
  | none =>
    rw [hdesc] at hiff
    simp only [ne_eq, not_true_eq_false, iff_false] at hiff
    simp [hiff]
  | some d =>
    rw [hdesc] at hiff
    simp only [ne_eq, reduceCtorEq, not_false_iff, iff_true] at hiff
    simpa using List.mem_flatten.mp hiff

theorem directFilter_presented_eq (meas : List MeasRow) (meta : List MetaRow) :
    directFilter meas (uuidChoices meta)
      (presentedTypes (meas.filter (fun r => (uuidChoices meta).contains r.uuid)))
      (presentedDescs (meas.filter (fun r => (uuidChoices meta).contains r.uuid)))
      = (meas.filter (fun r => (uuidChoices meta).contains r.uuid)).filter
          (fun r => r.measurement_desc.isSome) := by
  rw [List.filter_filter]
  unfold directFilter
  apply List.filter_congr
  intro r hr
  by_cases hU : r.uuid ∈ uuidChoices meta
  · have hrm1 : r ∈ meas.filter (fun r => (uuidChoices meta).contains r.uuid) :=
      List.mem_filter.mpr ⟨hr, List.elem_iff.mpr hU⟩
    cases hdesc : r.measurement_desc with
    | none => simp [hU, hdesc]
    | some d =>
      have hTm := mem_presentedTypes hrm1
      have hDm := mem_presentedDescs hrm1 hdesc
      simp at hTm hDm
      simp [hU, hdesc, hTm, hDm]
  · simp [hU]

theorem applyStagesFull_any_order (meas : List MeasRow) (meta : List MetaRow)
    (hnd : (meas.map (fun r : MeasRow => r.id)).Nodup) (order : List Nat)
    (horder : order ∈ ([[0, 1, 2], [0, 2, 1], [1, 0, 2], [1, 2, 0], [2, 0, 1],
      [2, 1, 0]] : List (List Nat))) :
    (applyStagesFull order (meas, meta)).1 =
      (meas.filter (fun r => (uuidChoices meta).contains r.uuid)).filter
        (fun r => r.measurement_desc.isSome) := by
  fin_cases horder
  · rw [show applyStagesFull [0, 1, 2] (meas, meta)
        = applyStageFull 2 (applyStageFull 1 (applyStageFull 0 (meas, meta)))
        from rfl,
      stage0_full, stage1_full, stage2_full _ _ (nodup_ids_filter _ hnd)]
  · rw [show applyStagesFull [0, 2, 1] (meas, meta)
        = applyStageFull 1 (applyStageFull 2 (applyStageFull 0 (meas, meta)))
        from rfl,
      stage0_full, stage2_full _ _ (nodup_ids_filter _ hnd), stage1_full]
  · rw [show applyStagesFull [1, 0, 2] (meas, meta)
        = applyStageFull 2 (applyStageFull 0 (applyStageFull 1 (meas, meta)))
        from rfl,
      stage1_full, stage0_full, stage2_full _ _ (nodup_ids_filter _ hnd)]
  · rw [show applyStagesFull [1, 2, 0] (meas, meta)
        = applyStageFull 0 (applyStageFull 2 (applyStageFull 1 (meas, meta)))
        from rfl,
      stage1_full, stage2_full _ _ hnd, stage0_full]
    exact filter_comm_meas _ _ _
  · rw [show applyStagesFull [2, 0, 1] (meas, meta)
        = applyStageFull 1 (applyStageFull 0 (applyStageFull 2 (meas, meta)))
        from rfl,
      stage2_full _ _ hnd, stage0_full, stage1_full]
    exact filter_comm_meas _ _ _
  · rw [show applyStagesFull [2, 1, 0] (meas, meta)
        = applyStageFull 0 (applyStageFull 1 (applyStageFull 2 (meas, meta)))
        from rfl,
      stage2_full _ _ hnd, stage1_full, stage0_full]
    exact filter_comm_meas _ _ _

/-- C3: when every measurement row has a distinct id (the data-model
invariant), running the three interactive stages with full selections — the
user ticking every presented choice at each stage — produces the same final
measurement row set as applying the three presented criteria (run ids, types,
descriptions) as direct membership filters in one step; and the stage order
never changes the final row set, only the choices each stage presents. -/
theorem c3_full_selection_stages_equal_direct_filter
    (meas : List MeasRow) (meta : List MetaRow)
    (hnd : (meas.map (fun r : MeasRow => r.id)).Nodup) :
    (applyStagesFull [0, 1, 2] (meas, meta)).1 =
      directFilter meas (uuidChoices meta)
        (presentedTypes (applyStagesFull [0] (meas, meta)).1)
        (presentedDescs (applyStagesFull [0, 1] (meas, meta)).1) ∧
    ∀ order ∈ ([[0, 1, 2], [0, 2, 1], [1, 0, 2], [1, 2, 0], [2, 0, 1],
        [2, 1, 0]] : List (List Nat)),
      (applyStagesFull order (meas, meta)).1 =
        (applyStagesFull [0, 1, 2] (meas, meta)).1 := by
  have hcan := applyStagesFull_any_order meas meta hnd
  constructor
  · rw [hcan [0, 1, 2] (by simp)]
    have h01 : (applyStagesFull [0] (meas, meta)).1 =
        meas.filter (fun r => (uuidChoices meta).contains r.uuid) := by
      rw [show applyStagesFull [0] (meas, meta) = applyStageFull 0 (meas, meta)
          from rfl, stage0_full]
    have h011 : (applyStagesFull [0, 1] (meas, meta)).1 =
        meas.filter (fun r => (uuidChoices meta).contains r.uuid) := by
      rw [show applyStagesFull [0, 1] (meas, meta)
          = applyStageFull 1 (applyStageFull 0 (meas, meta)) from rfl,
        stage0_full, stage1_full]
    rw [h01, h011]
    exact (directFilter_presented_eq meas meta).symm
  · intro order horder
    rw [hcan order horder, hcan [0, 1, 2] (by simp)]

/-- Witness for C3: over the concrete two-run scenario store, running the
stages in reverse order with full selections yields the same rows as the
canonical order. -/
theorem c3_full_selection_stages_equal_direct_filter_witness :
    (applyStagesFull [2, 1, 0] (measScenario, metaScenario)).1 =
      (applyStagesFull [0, 1, 2] (measScenario, metaScenario)).1 :=
  (c3_full_selection_stages_equal_direct_filter measScenario metaScenario
    (by decide)).2 [2, 1, 0] (by decide)
